import Mathlib

/-!
Verification of the request-security subsystem of the alx-polly web
application: the in-memory rate limiter (`lib/rate-limit.ts`), the CSRF
token service (`lib/csrf.ts`) and the session guardian
(`lib/session-management.ts`), shallowly embedded in Lean.

Times are wall-clock milliseconds, modelled as `Nat` (the source reads
`Date.now()`); every operation takes the current time explicitly.
-/

namespace RateLimit

/-- One entry of the rate limiter's `Map<string, RateLimitEntry>`
(`interface RateLimitEntry` in `lib/rate-limit.ts`). -/
structure RateLimitEntry where
  count : Nat
  resetTime : Nat
  blocked : Bool
  deriving Repr, DecidableEq

/-- Configuration of one `RateLimiter` instance (constructor arguments
`maxAttempts`, `windowMs`, `blockDurationMs`). -/
structure Config where
  maxAttempts : Nat
  windowMs : Nat
  blockDurationMs : Nat
  deriving Repr, DecidableEq

/-- The limiter's mutable `attempts` map, modelled extensionally. -/
def RLState := String → Option RateLimitEntry

/-- The freshly constructed limiter: an empty map. -/
def rlEmpty : RLState := fun _ => none

/-- `this.attempts.set(identifier, e)`. -/
def rlSet (st : RLState) (id : String) (e : RateLimitEntry) : RLState :=
  fun j => if j = id then some e else st j

/-- `this.attempts.delete(identifier)`. -/
def rlDelete (st : RLState) (id : String) : RLState :=
  fun j => if j = id then none else st j

/-- `RateLimiter.isRateLimited`.  Returns the boolean the source returns
together with the map after the lazy purges the source performs
(`this.attempts.delete`).  `now > entry.resetTime` is `e.resetTime < now`. -/
def isRateLimited (cfg : Config) (st : RLState) (id : String) (now : Nat) :
    Bool × RLState :=
  match st id with
  | none => (false, st)
  | some e =>
    if e.blocked ∧ e.resetTime < now then (false, rlDelete st id)
    else if e.blocked then (true, st)
    else if e.resetTime < now then (false, rlDelete st id)
    else (decide (cfg.maxAttempts ≤ e.count), st)

/-- `RateLimiter.recordFailedAttempt`. -/
def recordFailedAttempt (cfg : Config) (st : RLState) (id : String) (now : Nat) :
    RLState :=
  match st id with
  | none => rlSet st id ⟨1, now + cfg.windowMs, false⟩
  | some e =>
    if e.resetTime < now then
      rlSet st id ⟨1, now + cfg.windowMs, false⟩
    else
      -- entry.count++ ; block when count >= maxAttempts
      if cfg.maxAttempts ≤ e.count + 1 then
        rlSet st id ⟨e.count + 1, now + cfg.blockDurationMs, true⟩
      else
        rlSet st id ⟨e.count + 1, e.resetTime, e.blocked⟩

/-- `RateLimiter.recordSuccessfulAttempt`: unconditionally deletes the entry. -/
def recordSuccessfulAttempt (st : RLState) (id : String) : RLState :=
  rlDelete st id

/-- The spec's `isAllowed`: the negation of `isRateLimited`'s verdict. -/
def isAllowed (cfg : Config) (st : RLState) (id : String) (now : Nat) : Bool :=
  !(isRateLimited cfg st id now).1

/-- One externally visible operation on a limiter instance, with the
wall-clock time at which it runs. -/
inductive RLOp where
  | fail (id : String) (now : Nat)
  | success (id : String)
  | check (id : String) (now : Nat)
  deriving Repr

/-- Apply one operation to the map (for `check`, keep the possibly purged map). -/
def rlStep (cfg : Config) (st : RLState) : RLOp → RLState
  | .fail id now => recordFailedAttempt cfg st id now
  | .success id => recordSuccessfulAttempt st id
  | .check id now => (isRateLimited cfg st id now).2

/-- The map after a sequence of operations starting from a fresh limiter. -/
def rlRun (cfg : Config) (ops : List RLOp) : RLState :=
  ops.foldl (rlStep cfg) rlEmpty

/-- Map state after recording one failure for `id` at each time in `ts`. -/
def runFails (cfg : Config) (id : String) (ts : List Nat) : RLState :=
  ts.foldl (fun s t => recordFailedAttempt cfg s id t) rlEmpty

end RateLimit

namespace Session

/-- `SESSION_TIMEOUT_MS = 30 * 60 * 1000` (30 minutes, the soft timeout). -/
def SESSION_TIMEOUT_MS : Nat := 30 * 60 * 1000

/-- `SESSION_WARNING_MS = 5 * 60 * 1000`. -/
def SESSION_WARNING_MS : Nat := 5 * 60 * 1000

/-- `MAX_IDLE_TIME_MS = 60 * 60 * 1000` (1 hour hard idle limit). -/
def MAX_IDLE_TIME_MS : Nat := 60 * 60 * 1000

/-- The inline `24 * 60 * 60 * 1000` literal in `validateSession`'s absolute
age check. -/
def MAX_SESSION_AGE_MS : Nat := 24 * 60 * 60 * 1000

/-- A cookie as this subsystem writes it: a millisecond-timestamp value and
the `maxAge` TTL (seconds) passed to `cookieStore.set`.  The cookie values the
code writes are `Date.now().toString()`, so they round-trip through
`parseInt`; a missing cookie is `none`. -/
structure Cookie where
  value : Nat
  maxAge : Nat
  deriving Repr, DecidableEq

/-- The identity provider's session as far as the code reads it
(`session.user.id` and `session.access_token`). -/
structure ProviderSession where
  userId : String
  accessToken : String
  deriving Repr, DecidableEq

/-- The state `session-management.ts` operates on: the provider session and
the two locally tracked cookies. -/
structure SessionState where
  provider : Option ProviderSession
  lastActivity : Option Cookie
  sessionCreated : Option Cookie
  deriving Repr, DecidableEq

/-- `interface SessionInfo`. -/
structure SessionInfo where
  userId : String
  sessionId : String
  lastActivity : Nat
  createdAt : Nat
  isValid : Bool
  deriving Repr, DecidableEq

/-- `getCurrentSession`: absent provider session (or a provider error, which
the catch block maps to the same result) gives `none`; otherwise the cookie
timestamps are read with the source's defaults — `parseInt(v || '0')` for
`last-activity` and `parseInt(v || Date.now().toString())` for
`session-created`. -/
def getCurrentSession (st : SessionState) (now : Nat) : Option SessionInfo :=
  match st.provider with
  | none => none
  | some p =>
    some { userId := p.userId
           sessionId := p.accessToken.take 16
           lastActivity := (st.lastActivity.map Cookie.value).getD 0
           createdAt := (st.sessionCreated.map Cookie.value).getD now
           isValid := true }

/-- The `{ isValid, reason? }` object `validateSession` returns. -/
structure ValidationResult where
  isValid : Bool
  reason : Option String
  deriving Repr, DecidableEq

/-- `validateSession`.  The idle check is guarded by the truthiness test
`session.lastActivity &&`, so it is skipped when the parsed timestamp is 0;
`now - x` in JavaScript is negative when `x > now` and then compares below
the positive limits, which Nat truncated subtraction reproduces. -/
def validateSession (st : SessionState) (now : Nat) : ValidationResult :=
  match getCurrentSession st now with
  | none => ⟨false, some "No session found"⟩
  | some s =>
    if s.lastActivity ≠ 0 ∧ MAX_IDLE_TIME_MS < now - s.lastActivity then
      ⟨false, some "Session expired due to inactivity"⟩
    else if MAX_SESSION_AGE_MS < now - s.createdAt then
      ⟨false, some "Session expired due to age"⟩
    else ⟨true, none⟩

/-- `updateSessionActivity` (the spec's `touch()`): always rewrites
`last-activity` with `maxAge = SESSION_TIMEOUT_MS / 1000`; writes
`session-created` with `maxAge = MAX_IDLE_TIME_MS / 1000` only when that
cookie is absent (`!cookieStore.get('session-created')?.value`). -/
def updateSessionActivity (st : SessionState) (now : Nat) : SessionState :=
  let st1 := { st with lastActivity := some ⟨now, SESSION_TIMEOUT_MS / 1000⟩ }
  if st.sessionCreated = none then
    { st1 with sessionCreated := some ⟨now, MAX_IDLE_TIME_MS / 1000⟩ }
  else st1

/-- `terminateSession`: signs the provider session out and deletes both
cookies (the logging side effects have no bearing on state). -/
def terminateSession (_st : SessionState) : SessionState :=
  ⟨none, none, none⟩

/-- `extendSession`: validates, then either touches (valid) or terminates
(invalid), returning the boolean the source returns. -/
def extendSession (st : SessionState) (now : Nat) : Bool × SessionState :=
  if (validateSession st now).isValid then (true, updateSessionActivity st now)
  else (false, terminateSession st)

/-- The object `getSessionTimeoutInfo` returns.  The two countdowns can be
negative in the source, hence `Int`. -/
structure TimeoutInfo where
  timeUntilWarning : Int
  timeUntilTimeout : Int
  shouldWarn : Bool
  shouldTimeout : Bool
  deriving Repr, DecidableEq

/-- `getSessionTimeoutInfo`: `null` when there is no session or no recorded
activity (`!session.lastActivity`); otherwise
`timeUntilWarning = SESSION_WARNING_MS - timeSinceActivity` and
`timeUntilTimeout = SESSION_TIMEOUT_MS - timeSinceActivity`, with
`shouldWarn = timeUntilWarning <= 0 && timeUntilTimeout > 0`. -/
def getSessionTimeoutInfo (st : SessionState) (now : Nat) : Option TimeoutInfo :=
  match getCurrentSession st now with
  | none => none
  | some s =>
    if s.lastActivity = 0 then none
    else
      let timeSinceActivity : Int := (now : Int) - (s.lastActivity : Int)
      let timeUntilWarning : Int := (SESSION_WARNING_MS : Int) - timeSinceActivity
      let timeUntilTimeout : Int := (SESSION_TIMEOUT_MS : Int) - timeSinceActivity
      some { timeUntilWarning := timeUntilWarning
             timeUntilTimeout := timeUntilTimeout
             shouldWarn := decide (timeUntilWarning ≤ 0) && decide (0 < timeUntilTimeout)
             shouldTimeout := decide (timeUntilTimeout ≤ 0) }

end Session

namespace Csrf

/-- JavaScript strings as character lists, for faithful `split('.')`
reasoning. -/
abbrev Str := List Char

/-- The two cookies `csrf.ts` uses: `csrf-token` and `csrf-secret`.  Their
TTLs (1 h and 24 h) are enforced by the browser, not read by the code, and
are not modelled. -/
structure CSRFCookies where
  token : Option Str
  secret : Option Str
  deriving Repr, DecidableEq

/-- `cookieStore.get(name)?.value` under JavaScript falsiness: a missing
cookie and an empty value behave alike, so both read as `[]`. -/
def cookieVal (o : Option Str) : Str := o.getD []

/-- The secret `generateCSRFToken` ends up using: the stored one when it is
present and non-empty, else a fresh random one (`generateToken()`), supplied
here as the explicit argument `freshSecret`. -/
def resolveSecret (freshSecret : Str) (st : CSRFCookies) : Str :=
  if cookieVal st.secret = [] then freshSecret else cookieVal st.secret

/-- `generateCSRFToken`.  Randomness is passed in: `freshSecret` is the
secret `generateToken()` would produce if none is stored, `nonce` the token
one.  The hex HMAC-SHA256 digest of `crypto` is the explicit function
argument `hmac`.  Stores `nonce + "." + hmac(secret, nonce)` as the current
token and returns it. -/
def generateCSRFToken (hmac : Str → Str → Str) (freshSecret nonce : Str)
    (st : CSRFCookies) : Str × CSRFCookies :=
  let secret := resolveSecret freshSecret st
  let signature := hmac secret nonce
  let csrfToken := nonce ++ '.' :: signature
  (csrfToken, { token := some csrfToken, secret := some secret })

/-- JavaScript `String.prototype.split` with a one-character separator:
splits at every occurrence, keeping empty chunks (`"".split('.')` is
`[""]`). -/
def splitChar (c : Char) : Str → List Str
  | [] => [[]]
  | x :: xs =>
    if x = c then [] :: splitChar c xs
    else
      match splitChar c xs with
      | [] => [[x]]
      | h :: t => (x :: h) :: t

/-- `crypto.timingSafeEqual` on the two hex strings: throws on a length
mismatch (modelled as `Except.error`), otherwise compares contents.  (The
`Buffer.from(s, 'hex')` decoding is modelled as the identity: every value
compared here is a hex digest produced by `hmac`, where decoding preserves
equality and length equality.) -/
def timingSafeEqual (a b : Str) : Except Unit Bool :=
  if a.length = b.length then .ok (decide (a = b)) else .error ()

/-- `validateCSRFToken`'s body up to its `try`, checks in source order: the
falsiness guard on stored token, secret and candidate; the
`token !== storedToken` equality check; the destructuring
`[tokenPart, signature] = token.split('.')` with its falsiness guard; and the
constant-time signature comparison, whose thrown errors surface as
`Except.error`. -/
def validateCSRFTokenE (hmac : Str → Str → Str) (st : CSRFCookies)
    (token : Str) : Except Unit Bool :=
  if cookieVal st.token = [] ∨ cookieVal st.secret = [] ∨ token = [] then
    .ok false
  else if token ≠ cookieVal st.token then .ok false
  else if (splitChar '.' token).getD 0 [] = [] ∨
      (splitChar '.' token).getD 1 [] = [] then .ok false
  else
    timingSafeEqual ((splitChar '.' token).getD 1 [])
      (hmac (cookieVal st.secret) ((splitChar '.' token).getD 0 []))

/-- `validateCSRFToken`: the `catch` turns any thrown error into `false`. -/
def validateCSRFToken (hmac : Str → Str → Str) (st : CSRFCookies)
    (token : Str) : Bool :=
  match validateCSRFTokenE hmac st token with
  | .ok b => b
  | .error _ => false

/-- `clearCSRFTokens`: deletes both cookies. -/
def clearCSRFTokens (_st : CSRFCookies) : CSRFCookies :=
  ⟨none, none⟩

end Csrf

namespace RateLimit

theorem rlSet_self (st : RLState) (id : String) (e : RateLimitEntry) :
    rlSet st id e id = some e := by
  simp [rlSet]

/-- While the count stays below the threshold, each further failure inside the
window only increments the count; the window `resetTime` and the `blocked`
flag are untouched. -/
theorem foldl_counting (cfg : Config) (id : String) (l : List Nat) :
    ∀ (st : RLState) (c r : Nat), st id = some ⟨c, r, false⟩ →
    c + l.length < cfg.maxAttempts → (∀ t ∈ l, t ≤ r) →
    (l.foldl (fun s t => recordFailedAttempt cfg s id t) st) id =
      some ⟨c + l.length, r, false⟩ := by
  induction l with
  | nil => intro st c r h _ _; simpa using h
  | cons t l ih =>
    intro st c r h hlt hmem
    have ht : t ≤ r := hmem t (by simp)
    have hstep : (recordFailedAttempt cfg st id t) id = some ⟨c + 1, r, false⟩ := by
      simp only [recordFailedAttempt, h]
      rw [if_neg (by omega)]
      rw [if_neg (by simp at hlt; omega)]
      exact rlSet_self _ _ _
    have := ih (recordFailedAttempt cfg st id t) (c + 1) r hstep
      (by simp at hlt ⊢; omega) (fun x hx => hmem x (by simp [hx]))
    have hc : c + (t :: l).length = (c + 1) + l.length := by
      simp
      omega
    simp only [List.foldl_cons]
    rw [hc]
    exact this

/-- Branch lemma: a failure with no live entry creates a fresh window entry. -/
theorem rfa_fresh (cfg : Config) (st : RLState) (id : String) (now : Nat)
    (he : st id = none) :
    recordFailedAttempt cfg st id now id =
      some ⟨1, now + cfg.windowMs, false⟩ := by
  simp only [recordFailedAttempt, he]
  exact rlSet_self _ _ _

/-- Branch lemma: a failure inside the window that stays below the threshold
only increments the count. -/
theorem rfa_incr (cfg : Config) (st : RLState) (id : String) (now : Nat)
    (e : RateLimitEntry) (he : st id = some e) (hwin : ¬ e.resetTime < now)
    (hlt : ¬ cfg.maxAttempts ≤ e.count + 1) :
    recordFailedAttempt cfg st id now id =
      some ⟨e.count + 1, e.resetTime, e.blocked⟩ := by
  simp only [recordFailedAttempt, he]
  rw [if_neg hwin, if_neg hlt]
  exact rlSet_self _ _ _

/-- Branch lemma: a failure inside the window that reaches the threshold sets
`blocked` and re-anchors `resetTime` to `now + blockDurationMs`. -/
theorem rfa_block (cfg : Config) (st : RLState) (id : String) (now : Nat)
    (e : RateLimitEntry) (he : st id = some e) (hwin : ¬ e.resetTime < now)
    (hge : cfg.maxAttempts ≤ e.count + 1) :
    recordFailedAttempt cfg st id now id =
      some ⟨e.count + 1, now + cfg.blockDurationMs, true⟩ := by
  simp only [recordFailedAttempt, he]
  rw [if_neg hwin, if_pos hge]
  exact rlSet_self _ _ _

/-- After `maxAttempts` failures for `id` on a fresh limiter — the first at
`t1`, all later ones inside the window `t1 + windowMs` — the entry is blocked
with `count = maxAttempts` and `resetTime` anchored at the LAST failure plus
`blockDurationMs`.  Requires `maxAttempts ≥ 2`: the fresh-entry branch never
sets `blocked`. -/
theorem blocked_after_max (cfg : Config)
    (id : String) (t1 : Nat) (mid : List Nat) (tl : Nat)
    (hlen : mid.length + 2 = cfg.maxAttempts)
    (hmid : ∀ t ∈ mid, t ≤ t1 + cfg.windowMs)
    (hlast : tl ≤ t1 + cfg.windowMs) :
    (runFails cfg id (t1 :: (mid ++ [tl]))) id =
      some ⟨cfg.maxAttempts, tl + cfg.blockDurationMs, true⟩ := by
  have h1 : (recordFailedAttempt cfg rlEmpty id t1) id =
      some ⟨1, t1 + cfg.windowMs, false⟩ := rfa_fresh cfg rlEmpty id t1 rfl
  have hmidSt := foldl_counting cfg id mid (recordFailedAttempt cfg rlEmpty id t1)
    1 (t1 + cfg.windowMs) h1 (by omega) hmid
  have hsplit : runFails cfg id (t1 :: (mid ++ [tl])) =
      recordFailedAttempt cfg
        (mid.foldl (fun s t => recordFailedAttempt cfg s id t)
          (recordFailedAttempt cfg rlEmpty id t1)) id tl := by
    simp [runFails, List.foldl_cons, List.foldl_append]
  rw [hsplit]
  rw [rfa_block cfg _ id tl _ hmidSt (by dsimp only; omega) (by dsimp only; omega)]
  congr 2
  dsimp only
  omega

/-- Branch lemma: a failure leaves every other identifier's entry unchanged. -/
theorem rfa_ne (cfg : Config) (st : RLState) (id : String) (now : Nat)
    (j : String) (hj : j ≠ id) :
    recordFailedAttempt cfg st id now j = st j := by
  cases hst : st id with
  | none => simp [recordFailedAttempt, hst, rlSet, hj]
  | some e =>
    simp only [recordFailedAttempt, hst]
    split_ifs <;> simp [rlSet, hj]

/-- Branch lemma: a failure on an expired entry restarts a fresh window. -/
theorem rfa_expired (cfg : Config) (st : RLState) (id : String) (now : Nat)
    (e : RateLimitEntry) (he : st id = some e) (hw : e.resetTime < now) :
    recordFailedAttempt cfg st id now id =
      some ⟨1, now + cfg.windowMs, false⟩ := by
  simp only [recordFailedAttempt, he]
  rw [if_pos hw]
  exact rlSet_self _ _ _

/-- Deleting one key keeps every surviving entry. -/
theorem rlDelete_sub (st : RLState) (id j : String) (e : RateLimitEntry)
    (h : rlDelete st id j = some e) : st j = some e := by
  by_cases hji : j = id
  · subst hji
    simp [rlDelete] at h
  · simpa [rlDelete, hji] using h

/-- Any entry of the map left by `isRateLimited`'s lazy purge was already in
the map it read. -/
theorem isRateLimited_snd_sub (cfg : Config) (st : RLState) (id : String)
    (now : Nat) (j : String) (e : RateLimitEntry)
    (h : (isRateLimited cfg st id now).2 j = some e) : st j = some e := by
  cases hst : st id with
  | none => simpa [isRateLimited, hst] using h
  | some x =>
    simp only [isRateLimited, hst] at h
    split_ifs at h <;> first | exact h | exact rlDelete_sub st id j e h

/-- Any entry surviving `recordSuccessfulAttempt` was already present. -/
theorem success_sub (st : RLState) (id : String) (j : String)
    (e : RateLimitEntry) (h : recordSuccessfulAttempt st id j = some e) :
    st j = some e :=
  rlDelete_sub st id j e h

/-- The per-entry invariant of the limiter map for `maxAttempts ≥ 2`: every
entry has a positive count, and is blocked exactly when the count has reached
the threshold. -/
def Inv (cfg : Config) (st : RLState) : Prop :=
  ∀ id e, st id = some e →
    1 ≤ e.count ∧ (e.blocked = true ↔ cfg.maxAttempts ≤ e.count)

/-- The direction of the invariant that holds for every configuration:
positive count, and `blocked` only once the threshold was reached. -/
def WeakInv (cfg : Config) (st : RLState) : Prop :=
  ∀ id e, st id = some e →
    1 ≤ e.count ∧ (e.blocked = true → cfg.maxAttempts ≤ e.count)

theorem weakInv_rfa (cfg : Config) (st : RLState) (id : String) (now : Nat)
    (h : WeakInv cfg st) : WeakInv cfg (recordFailedAttempt cfg st id now) := by
  intro j e' hj
  by_cases hji : j = id
  · subst hji
    cases hst : st j with
    | none =>
      rw [rfa_fresh cfg st j now hst] at hj
      cases hj
      exact ⟨le_refl 1, by simp⟩
    | some e =>
      by_cases hw : e.resetTime < now
      · rw [rfa_expired cfg st j now e hst hw] at hj
        cases hj
        exact ⟨le_refl 1, by simp⟩
      · by_cases hge : cfg.maxAttempts ≤ e.count + 1
        · rw [rfa_block cfg st j now e hst hw hge] at hj
          cases hj
          exact ⟨Nat.succ_le_succ (Nat.zero_le _), fun _ => hge⟩
        · rw [rfa_incr cfg st j now e hst hw hge] at hj
          cases hj
          have hold := h j e hst
          exact ⟨Nat.succ_le_succ (Nat.zero_le _),
            fun hb => Nat.le_succ_of_le (hold.2 hb)⟩
  · rw [rfa_ne cfg st id now j hji] at hj
    exact h j e' hj

theorem inv_rfa (cfg : Config) (h2 : 2 ≤ cfg.maxAttempts) (st : RLState)
    (id : String) (now : Nat) (h : Inv cfg st) :
    Inv cfg (recordFailedAttempt cfg st id now) := by
  intro j e' hj
  by_cases hji : j = id
  · subst hji
    cases hst : st j with
    | none =>
      rw [rfa_fresh cfg st j now hst] at hj
      cases hj
      exact ⟨le_refl 1, Iff.intro (fun hx => absurd hx Bool.false_ne_true)
        (fun hx => absurd hx (show ¬ cfg.maxAttempts ≤ 1 by omega))⟩
    | some e =>
      by_cases hw : e.resetTime < now
      · rw [rfa_expired cfg st j now e hst hw] at hj
        cases hj
        exact ⟨le_refl 1, Iff.intro (fun hx => absurd hx Bool.false_ne_true)
          (fun hx => absurd hx (show ¬ cfg.maxAttempts ≤ 1 by omega))⟩
      · by_cases hge : cfg.maxAttempts ≤ e.count + 1
        · rw [rfa_block cfg st j now e hst hw hge] at hj
          cases hj
          exact ⟨Nat.succ_le_succ (Nat.zero_le _),
            Iff.intro (fun _ => hge) (fun _ => rfl)⟩
        · rw [rfa_incr cfg st j now e hst hw hge] at hj
          cases hj
          have hold := h j e hst
          refine ⟨Nat.succ_le_succ (Nat.zero_le _), ?_⟩
          show e.blocked = true ↔ cfg.maxAttempts ≤ e.count + 1
          rw [hold.2]
          omega
  · rw [rfa_ne cfg st id now j hji] at hj
    exact h j e' hj

theorem weakInv_step (cfg : Config) (st : RLState) (op : RLOp)
    (h : WeakInv cfg st) : WeakInv cfg (rlStep cfg st op) := by
  cases op with
  | fail id now => exact weakInv_rfa cfg st id now h
  | success id => exact fun j e hj => h j e (success_sub st id j e hj)
  | check id now => exact fun j e hj => h j e (isRateLimited_snd_sub cfg st id now j e hj)

theorem inv_step (cfg : Config) (h2 : 2 ≤ cfg.maxAttempts) (st : RLState)
    (op : RLOp) (h : Inv cfg st) : Inv cfg (rlStep cfg st op) := by
  cases op with
  | fail id now => exact inv_rfa cfg h2 st id now h
  | success id => exact fun j e hj => h j e (success_sub st id j e hj)
  | check id now => exact fun j e hj => h j e (isRateLimited_snd_sub cfg st id now j e hj)

theorem weakInv_rlRun (cfg : Config) (ops : List RLOp) :
    WeakInv cfg (rlRun cfg ops) := by
  have hgen : ∀ (l : List RLOp) (st : RLState), WeakInv cfg st →
      WeakInv cfg (l.foldl (rlStep cfg) st) := by
    intro l
    induction l with
    | nil => exact fun st h => h
    | cons op l ih =>
      intro st h
      exact ih (rlStep cfg st op) (weakInv_step cfg st op h)
  exact hgen ops rlEmpty (fun j e hj => by simp [rlEmpty] at hj)

theorem inv_rlRun (cfg : Config) (h2 : 2 ≤ cfg.maxAttempts) (ops : List RLOp) :
    Inv cfg (rlRun cfg ops) := by
  have hgen : ∀ (l : List RLOp) (st : RLState), Inv cfg st →
      Inv cfg (l.foldl (rlStep cfg) st) := by
    intro l
    induction l with
    | nil => exact fun st h => h
    | cons op l ih =>
      intro st h
      exact ih (rlStep cfg st op) (inv_step cfg h2 st op h)
  exact hgen ops rlEmpty (fun j e hj => by simp [rlEmpty] at hj)

end RateLimit

namespace RateLimit

/-- C1 (amended to `maxAttempts ≥ 2`): after `maxAttempts` consecutive
failures inside one window — the first at `t1`, the later ones at times at
most `t1 + windowMs` — `isAllowed` is false exactly up to `blockDurationMs`
measured from the LAST failure `tl`, and true strictly afterwards; the window
start `t1` plays no role in the expiry. -/
theorem C1_block_expiry_anchored_at_last_failure (cfg : Config)
    (h2 : 2 ≤ cfg.maxAttempts) (id : String) (t1 : Nat) (mid : List Nat)
    (tl : Nat) (hlen : (t1 :: (mid ++ [tl])).length = cfg.maxAttempts)
    (hmid : ∀ t ∈ mid, t ≤ t1 + cfg.windowMs)
    (hlast : tl ≤ t1 + cfg.windowMs) :
    ∀ t, isAllowed cfg (runFails cfg id (t1 :: (mid ++ [tl]))) id t =
      decide (tl + cfg.blockDurationMs < t) := by
  intro t
  have hlen' : mid.length + 2 = cfg.maxAttempts := by
    simp at hlen
    omega
  have hb := blocked_after_max cfg id t1 mid tl hlen' hmid hlast
  simp only [isAllowed, isRateLimited, hb]
  by_cases h : tl + cfg.blockDurationMs < t <;> simp [h]

/-- C1 witness: maxAttempts = 2, window = 1000, blockDuration = 2000,
failures at t = 0 and t = 100; at t = 1600 the block (expiring at 2100) is
still in force. -/
theorem C1_witness :
    isAllowed ⟨2, 1000, 2000⟩
      (runFails ⟨2, 1000, 2000⟩ "x" (0 :: ([] ++ [100]))) "x" 1600 = false := by
  have h := C1_block_expiry_anchored_at_last_failure ⟨2, 1000, 2000⟩
    (by decide) "x" 0 [] 100 (by decide) (by simp) (by decide) 1600
  rw [h]
  decide

/-- C1 counterexample: the claim quantifies over every `maxAttempts ≥ 1`, but
with `maxAttempts = 1` (window 1000 ms, blockDuration 2000 ms) the single
failure at t = 0 never sets `blocked` — the fresh-entry branch of
`recordFailedAttempt` does not check the threshold — so `isAllowed` is true
again at t = 1500 although only 1500 ms < blockDuration = 2000 ms have
elapsed since the last failure. -/
theorem C1_counterexample :
    isAllowed ⟨1, 1000, 2000⟩ (runFails ⟨1, 1000, 2000⟩ "x" [0]) "x" 1500 = true ∧
    (1500 : Nat) < 0 + 2000 := by
  decide

/-- C2 counterexample: in the spec's concrete scenario (maxAttempts 3,
window 1000 ms, blockDuration 2000 ms, failures at t = 0, 100, 200) the claim
asserts `isAllowed` is true at t = 2200 exactly; the code still denies there,
because block expiry requires `now > resetTime` strictly. -/
theorem C2_counterexample :
    isAllowed ⟨3, 1000, 2000⟩
      (runFails ⟨3, 1000, 2000⟩ "x" [0, 100, 200]) "x" 2200 = false := by
  decide

/-- C2 (amended): in the concrete scenario, `isAllowed "x"` at time t equals
`2200 < t` — false at every t ≤ 2200 (in particular throughout
201 ≤ t < 2200 and at t = 2200 itself) and true from t = 2201 on. -/
theorem C2_scenario_allowed_iff_strictly_after_2200 (t : Nat) :
    isAllowed ⟨3, 1000, 2000⟩
      (runFails ⟨3, 1000, 2000⟩ "x" [0, 100, 200]) "x" t =
      decide (2200 < t) := by
  have hb : (runFails ⟨3, 1000, 2000⟩ "x" [0, 100, 200]) "x" =
      some ⟨3, 2200, true⟩ := by decide
  simp only [isAllowed, isRateLimited, hb]
  by_cases h : (2200 : Nat) < t <;> simp [h]

/-- C2 witness: the amended statement evaluated at t = 2201, the first
instant at which access is allowed again. -/
theorem C2_witness :
    isAllowed ⟨3, 1000, 2000⟩
      (runFails ⟨3, 1000, 2000⟩ "x" [0, 100, 200]) "x" 2201 = decide ((2200 : Nat) < 2201) :=
  C2_scenario_allowed_iff_strictly_after_2200 2201

/-- C9: starting from the empty map, every sequence of failure, success and
admission-check operations on a limiter with `maxAttempts ≥ 2` preserves the
entry invariant — every live entry has `count ≥ 1` and is `blocked` exactly
when `count ≥ maxAttempts` — and consequently the final
`count ≥ maxAttempts` branch of `isRateLimited` for an unblocked, unexpired
entry can only answer false (it is dead code). -/
theorem C9_rate_limiter_invariant (cfg : Config) (h2 : 2 ≤ cfg.maxAttempts)
    (ops : List RLOp) :
    Inv cfg (rlRun cfg ops) ∧
    ∀ id e now, rlRun cfg ops id = some e → e.blocked = false →
      ¬ e.resetTime < now →
      (isRateLimited cfg (rlRun cfg ops) id now).1 = false := by
  refine ⟨inv_rlRun cfg h2 ops, ?_⟩
  intro id e now he hb hexp
  have hinv := inv_rlRun cfg h2 ops id e he
  have hcount : ¬ cfg.maxAttempts ≤ e.count := by
    intro hc
    rw [hinv.2.mpr hc] at hb
    simp at hb
  simp [isRateLimited, he, hb, hexp, hcount]

end RateLimit

namespace RateLimit

/-- C9 witness: the invariant holds for the concrete run of one failure on a
limiter with maxAttempts = 2, window = 10 ms, blockDuration = 20 ms. -/
theorem C9_witness :
    Inv ⟨2, 10, 20⟩ (rlRun ⟨2, 10, 20⟩ [RLOp.fail "a" 0]) :=
  (C9_rate_limiter_invariant ⟨2, 10, 20⟩ (by decide) [RLOp.fail "a" 0]).1

/-- C10: in any state reachable from a fresh limiter, a further failure for an
identifier whose entry is blocked and not yet expired (`now ≤ resetTime`)
increments the count, keeps the entry blocked, and re-anchors the expiry to
`now + blockDurationMs` — each failure during an active block extends the
block by a full `blockDurationMs` from that failure's time. -/
theorem C10_failure_during_block_extends (cfg : Config) (ops : List RLOp)
    (id : String) (now : Nat) (e : RateLimitEntry)
    (he : rlRun cfg ops id = some e) (hb : e.blocked = true)
    (hexp : ¬ e.resetTime < now) :
    recordFailedAttempt cfg (rlRun cfg ops) id now id =
      some ⟨e.count + 1, now + cfg.blockDurationMs, true⟩ := by
  have hw := weakInv_rlRun cfg ops id e he
  exact rfa_block cfg _ id now e he hexp (Nat.le_succ_of_le (hw.2 hb))

/-- C10 witness: maxAttempts = 2, window = 10 ms, blockDuration = 20 ms;
failures at t = 0 and t = 1 leave the blocked entry ⟨2, 21, true⟩, and a
further failure at t = 5 (inside the block) yields ⟨3, 25, true⟩. -/
theorem C10_witness :
    recordFailedAttempt ⟨2, 10, 20⟩
      (rlRun ⟨2, 10, 20⟩ [RLOp.fail "a" 0, RLOp.fail "a" 1]) "a" 5 "a" =
      some ⟨3, 25, true⟩ :=
  C10_failure_during_block_extends ⟨2, 10, 20⟩ [RLOp.fail "a" 0, RLOp.fail "a" 1]
    "a" 5 ⟨2, 21, true⟩ (by decide) rfl (by decide)

end RateLimit

namespace Session

/-- C3 at the failing input: a provider session exists but the
`last-activity` cookie is missing, so `getCurrentSession` parses the activity
timestamp as 0, the `session.lastActivity &&` truthiness guard skips the idle
check entirely, and `validateSession` answers VALID — the ambiguous state
resolves to "allow", not to "not valid" as the fail-closed design requires. -/
theorem C3_missing_activity_cookie_validates :
    validateSession ⟨some ⟨"u", "access-token-0123456789"⟩, none, none⟩
      10000000 = ⟨true, none⟩ := by
  decide

/-- C6: `extendSession` first evaluates `validateSession`; on an invalid
verdict it terminates (returning false, after which `getCurrentSession` is
absent at every later time), on a valid verdict it touches and returns true.
In particular a session whose recorded `lastActivityAt` lies
`MAX_IDLE_TIME_MS + 1` ms in the past is rejected and left absent. -/
theorem C6_extend_terminates_or_touches (st : SessionState) (now : Nat) :
    ((validateSession st now).isValid = false →
      extendSession st now = (false, terminateSession st) ∧
      ∀ t, getCurrentSession (extendSession st now).2 t = none) ∧
    ((validateSession st now).isValid = true →
      extendSession st now = (true, updateSessionActivity st now)) ∧
    (∀ la ttl, st.lastActivity = some ⟨la, ttl⟩ → 0 < la →
      la + (MAX_IDLE_TIME_MS + 1) = now →
      (extendSession st now).1 = false ∧
      ∀ t, getCurrentSession (extendSession st now).2 t = none) := by
  refine ⟨?_, ?_, ?_⟩
  · intro h
    constructor
    · simp [extendSession, h]
    · intro t
      simp [extendSession, h, terminateSession, getCurrentSession]
  · intro h
    simp [extendSession, h]
  · intro la ttl hla hpos hnow
    have hinv : (validateSession st now).isValid = false := by
      cases hp : st.provider with
      | none => simp [validateSession, getCurrentSession, hp]
      | some p =>
        have hidle : MAX_IDLE_TIME_MS < now - la := by omega
        simp only [validateSession, getCurrentSession, hp, hla,
          Option.map_some', Option.getD_some]
        rw [if_pos ⟨by omega, hidle⟩]
    constructor
    · simp [extendSession, hinv]
    · intro t
      simp [extendSession, hinv, terminateSession, getCurrentSession]

/-- C6 witness: provider session present, last activity recorded at t = 5 ms,
evaluated at `now = 5 + MAX_IDLE_TIME_MS + 1`: `extendSession` returns false
and the session is absent afterwards (sampled at t = 9999999). -/
theorem C6_witness :
    (extendSession ⟨some ⟨"u", "tok"⟩, some ⟨5, 1800⟩, none⟩ 3600006).1 = false ∧
    getCurrentSession
      (extendSession ⟨some ⟨"u", "tok"⟩, some ⟨5, 1800⟩, none⟩ 3600006).2
      9999999 = none := by
  have h := (C6_extend_terminates_or_touches
    ⟨some ⟨"u", "tok"⟩, some ⟨5, 1800⟩, none⟩ 3600006).2.2 5 1800 rfl
    (by decide) (by decide)
  exact ⟨h.1, h.2 9999999⟩

/-- C7 at the failing input: activity recorded at t = 1000000, queried at
t = 1600000, i.e. 600000 ms = 10 minutes of inactivity.  The claim (and the
comment on `SESSION_WARNING_MS`) put the warning window at 5 minutes BEFORE
the 30-minute timeout, so no warning should fire below 25 minutes; but the
code computes `timeUntilWarning = SESSION_WARNING_MS - timeSinceActivity`,
which makes `shouldWarn` true from 5 minutes AFTER the last activity on. -/
theorem C7_warns_ten_minutes_after_activity :
    (getSessionTimeoutInfo ⟨some ⟨"u", "tok"⟩, some ⟨1000000, 1800⟩, none⟩
        1600000).map TimeoutInfo.shouldWarn = some true ∧
    (600000 : Nat) < SESSION_TIMEOUT_MS - SESSION_WARNING_MS := by
  decide

end Session

namespace Session

/-- C8 counterexample: one `updateSessionActivity` call on an empty cookie
jar at t = 1000 writes `last-activity` with TTL 1800 s (30 min, not the
claimed 1-hour idle timeout = 3600 s) and `session-created` with TTL 3600 s
(1 h, not the claimed 24-hour maximum lifetime = 86400 s). -/
theorem C8_counterexample :
    (updateSessionActivity ⟨none, none, none⟩ 1000).lastActivity =
      some ⟨1000, 1800⟩ ∧
    (1800 : Nat) ≠ MAX_IDLE_TIME_MS / 1000 ∧
    (updateSessionActivity ⟨none, none, none⟩ 1000).sessionCreated =
      some ⟨1000, 3600⟩ ∧
    (3600 : Nat) ≠ 24 * 60 * 60 := by
  decide

/-- C8 (amended): every `updateSessionActivity` call sets `last-activity` to
now with cookie TTL `SESSION_TIMEOUT_MS / 1000` (30 minutes, the soft
timeout, not the 1-hour idle limit), sets `session-created` — with cookie TTL
`MAX_IDLE_TIME_MS / 1000`, i.e. 1 hour, not 24 hours — only when it is
absent, and never overwrites an existing `session-created` cookie. -/
theorem C8_touch_cookie_writes (st : SessionState) (now : Nat) :
    (updateSessionActivity st now).lastActivity =
      some ⟨now, SESSION_TIMEOUT_MS / 1000⟩ ∧
    (st.sessionCreated = none →
      (updateSessionActivity st now).sessionCreated =
        some ⟨now, MAX_IDLE_TIME_MS / 1000⟩) ∧
    (∀ c, st.sessionCreated = some c →
      (updateSessionActivity st now).sessionCreated = some c) ∧
    (updateSessionActivity st now).provider = st.provider := by
  by_cases h : st.sessionCreated = none
  · refine ⟨by simp [updateSessionActivity, h], fun _ => by simp [updateSessionActivity, h], ?_, by simp [updateSessionActivity, h]⟩
    intro c hc
    rw [h] at hc
    cases hc
  · refine ⟨by simp [updateSessionActivity, h], fun hn => absurd hn h, ?_, by simp [updateSessionActivity, h]⟩
    intro c hc
    simp [updateSessionActivity, h, hc]

/-- C8 witness: the amended statement at a jar that already holds
`session-created` = ⟨7, 99⟩, touched at t = 42: `last-activity` becomes
⟨42, 1800⟩ and the existing `session-created` survives untouched. -/
theorem C8_witness :
    (updateSessionActivity ⟨none, none, some ⟨7, 99⟩⟩ 42).lastActivity =
      some ⟨42, 1800⟩ ∧
    (updateSessionActivity ⟨none, none, some ⟨7, 99⟩⟩ 42).sessionCreated =
      some ⟨7, 99⟩ :=
  ⟨(C8_touch_cookie_writes ⟨none, none, some ⟨7, 99⟩⟩ 42).1,
   (C8_touch_cookie_writes ⟨none, none, some ⟨7, 99⟩⟩ 42).2.2.1 ⟨7, 99⟩ rfl⟩

end Session

namespace Csrf

theorem splitChar_not_mem (c : Char) (l : Str) (h : c ∉ l) :
    splitChar c l = [l] := by
  induction l with
  | nil => rfl
  | cons x xs ih =>
    have hx : ¬ x = c := fun hxc => h (by simp [hxc])
    have hxs : c ∉ xs := fun hm => h (by simp [hm])
    simp only [splitChar, if_neg hx, ih hxs]

theorem splitChar_append (c : Char) (l1 l2 : Str) (h : c ∉ l1) :
    splitChar c (l1 ++ c :: l2) = l1 :: splitChar c l2 := by
  induction l1 with
  | nil => simp [splitChar]
  | cons x xs ih =>
    have hx : ¬ x = c := fun hxc => h (by simp [hxc])
    have hxs : c ∉ xs := fun hm => h (by simp [hm])
    have hstep : splitChar c (x :: (xs ++ c :: l2)) =
        if x = c then [] :: splitChar c (xs ++ c :: l2)
        else match splitChar c (xs ++ c :: l2) with
          | [] => [[x]]
          | h :: t => (x :: h) :: t := rfl
    rw [List.cons_append, hstep, if_neg hx, ih hxs]

/-- A separator-free prefix before the first separator is determined by the
whole string. -/
theorem append_sep_inj (c : Char) (l1 r1 l2 r2 : Str) (h1 : c ∉ l1)
    (h2 : c ∉ l2) (h : l1 ++ c :: r1 = l2 ++ c :: r2) : l1 = l2 ∧ r1 = r2 := by
  induction l1 generalizing l2 with
  | nil =>
    cases l2 with
    | nil => simpa using h
    | cons y ys =>
      simp only [List.nil_append, List.cons_append, List.cons.injEq] at h
      exact absurd (by rw [h.1]; exact List.mem_cons_self y ys) h2
  | cons x xs ih =>
    cases l2 with
    | nil =>
      simp only [List.cons_append, List.nil_append, List.cons.injEq] at h
      exact absurd (by rw [← h.1]; exact List.mem_cons_self x xs) h1
    | cons y ys =>
      simp only [List.cons_append, List.cons.injEq] at h
      have hxs : c ∉ xs := fun hm => h1 (by simp [hm])
      have hys : c ∉ ys := fun hm => h2 (by simp [hm])
      have hrec := ih ys hxs hys h.2
      exact ⟨by simp [h.1, hrec.1], hrec.2⟩

end Csrf

namespace Csrf

theorem resolveSecret_ne_nil (fresh : Str) (st : CSRFCookies)
    (hfresh : fresh ≠ []) : resolveSecret fresh st ≠ [] := by
  unfold resolveSecret
  split_ifs with h
  · exact hfresh
  · exact h

theorem generate_fst (hmac : Str → Str → Str) (fresh nonce : Str)
    (st : CSRFCookies) :
    (generateCSRFToken hmac fresh nonce st).1 =
      nonce ++ '.' :: hmac (resolveSecret fresh st) nonce := rfl

theorem generate_snd_token (hmac : Str → Str → Str) (fresh nonce : Str)
    (st : CSRFCookies) :
    (generateCSRFToken hmac fresh nonce st).2.token =
      some (nonce ++ '.' :: hmac (resolveSecret fresh st) nonce) := rfl

theorem generate_snd_secret (hmac : Str → Str → Str) (fresh nonce : Str)
    (st : CSRFCookies) :
    (generateCSRFToken hmac fresh nonce st).2.secret =
      some (resolveSecret fresh st) := rfl

/-- Issuing a token does not change which secret later calls resolve to, as
long as the resolved secret is non-empty. -/
theorem resolve_after_generate (hmac : Str → Str → Str)
    (fresh fresh2 nonce : Str) (st : CSRFCookies) (hfresh : fresh ≠ []) :
    resolveSecret fresh2 (generateCSRFToken hmac fresh nonce st).2 =
      resolveSecret fresh st := by
  have h := resolveSecret_ne_nil fresh st hfresh
  show (if cookieVal (some (resolveSecret fresh st)) = [] then fresh2
        else cookieVal (some (resolveSecret fresh st))) = resolveSecret fresh st
  rw [show cookieVal (some (resolveSecret fresh st)) = resolveSecret fresh st
    from rfl]
  exact if_neg h

/-- The happy path of `validateCSRFToken`: a stored, well-formed
`nonce.signature` token whose signature is the digest of its nonce under the
stored secret validates. -/
theorem validate_stored_wellformed (hmac : Str → Str → Str)
    (st : CSRFCookies) (n s sec : Str) (htok : st.token = some (n ++ '.' :: s))
    (hsec : st.secret = some sec) (hsecne : sec ≠ []) (hn : n ≠ [])
    (hs : s ≠ []) (hdn : '.' ∉ n) (hds : '.' ∉ s) (hsig : hmac sec n = s) :
    validateCSRFToken hmac st (n ++ '.' :: s) = true := by
  have hcv : cookieVal st.token = n ++ '.' :: s := by rw [htok]; rfl
  have hcs : cookieVal st.secret = sec := by rw [hsec]; rfl
  have hsplit : splitChar '.' (n ++ '.' :: s) = [n, s] := by
    rw [splitChar_append '.' n s hdn, splitChar_not_mem '.' s hds]
  unfold validateCSRFToken validateCSRFTokenE
  rw [hcv, hcs, hsplit]
  rw [if_neg (by simp [hsecne])]
  rw [if_neg (by simp)]
  rw [if_neg (by simp [hn, hs])]
  rw [show [n, s].getD 1 ([] : Str) = s from rfl,
    show [n, s].getD 0 ([] : Str) = n from rfl]
  unfold timingSafeEqual
  rw [hsig]
  simp

/-- A candidate that `validateCSRFToken` accepts is exactly the stored
token. -/
theorem validate_true_eq_stored (hmac : Str → Str → Str) (st : CSRFCookies)
    (a : Str) (h : validateCSRFToken hmac st a = true) :
    a = cookieVal st.token := by
  unfold validateCSRFToken validateCSRFTokenE at h
  by_cases h1 : cookieVal st.token = [] ∨ cookieVal st.secret = [] ∨ a = []
  · rw [if_pos h1] at h
    simp at h
  · rw [if_neg h1] at h
    by_cases h2 : a ≠ cookieVal st.token
    · rw [if_pos h2] at h
      simp at h
    · push_neg at h2
      exact h2

/-- Any candidate other than the stored token is rejected. -/
theorem validate_false_of_ne_stored (hmac : Str → Str → Str)
    (st : CSRFCookies) (a : Str) (h : a ≠ cookieVal st.token) :
    validateCSRFToken hmac st a = false := by
  cases hv : validateCSRFToken hmac st a with
  | false => rfl
  | true => exact absurd (validate_true_eq_stored hmac st a hv) h

end Csrf

namespace Csrf

/-- C4: from any client cookie state, issuing a token T makes `validateToken T`
true; issuing a second token T2 makes `validateToken T` false and
`validateToken T2` true; and in any state two accepted candidates are equal
(both must equal the stored token), so two distinct tokens are never
simultaneously valid.  The hypotheses state what `crypto` guarantees: the
random nonces and the hex digests are non-empty and contain no '.', and the
two nonces differ. -/
theorem C4_second_issue_invalidates_first (hmac : Str → Str → Str)
    (st0 : CSRFCookies) (fresh n1 n2 : Str) (hfresh : fresh ≠ [])
    (hn1 : n1 ≠ []) (hn2 : n2 ≠ []) (hd1 : '.' ∉ n1) (hd2 : '.' ∉ n2)
    (hne : n1 ≠ n2)
    (hs1ne : hmac (resolveSecret fresh st0) n1 ≠ [])
    (hs1d : '.' ∉ hmac (resolveSecret fresh st0) n1)
    (hs2ne : hmac (resolveSecret fresh st0) n2 ≠ [])
    (hs2d : '.' ∉ hmac (resolveSecret fresh st0) n2) :
    validateCSRFToken hmac (generateCSRFToken hmac fresh n1 st0).2
      (generateCSRFToken hmac fresh n1 st0).1 = true ∧
    validateCSRFToken hmac
      (generateCSRFToken hmac fresh n2 (generateCSRFToken hmac fresh n1 st0).2).2
      (generateCSRFToken hmac fresh n1 st0).1 = false ∧
    validateCSRFToken hmac
      (generateCSRFToken hmac fresh n2 (generateCSRFToken hmac fresh n1 st0).2).2
      (generateCSRFToken hmac fresh n2 (generateCSRFToken hmac fresh n1 st0).2).1 = true ∧
    (∀ (st : CSRFCookies) (a b : Str),
      validateCSRFToken hmac st a = true → validateCSRFToken hmac st b = true →
      a = b) := by
  have hsec := resolveSecret_ne_nil fresh st0 hfresh
  have hres := resolve_after_generate hmac fresh fresh n1 st0 hfresh
  refine ⟨?_, ?_, ?_, ?_⟩
  · rw [generate_fst]
    exact validate_stored_wellformed hmac _ n1 _ (resolveSecret fresh st0)
      (generate_snd_token hmac fresh n1 st0) (generate_snd_secret hmac fresh n1 st0)
      hsec hn1 hs1ne hd1 hs1d rfl
  · apply validate_false_of_ne_stored
    rw [show cookieVal (generateCSRFToken hmac fresh n2
        (generateCSRFToken hmac fresh n1 st0).2).2.token =
        n2 ++ '.' :: hmac (resolveSecret fresh
          (generateCSRFToken hmac fresh n1 st0).2) n2 from rfl]
    rw [generate_fst, hres]
    intro heq
    exact hne (append_sep_inj '.' n1 _ n2 _ hd1 hd2 heq).1
  · rw [generate_fst, hres]
    refine validate_stored_wellformed hmac _ n2 _ (resolveSecret fresh st0)
      ?_ ?_ hsec hn2 hs2ne hd2 hs2d rfl
    · rw [generate_snd_token, hres]
    · rw [generate_snd_secret, hres]
  · intro st a b ha hb
    rw [validate_true_eq_stored hmac st a ha, validate_true_eq_stored hmac st b hb]

/-- C4 witness: the toy digest `hmac s m = s ++ m`, fresh secret "s", nonces
"a" then "b", starting from the empty cookie jar: every hypothesis is
concrete and the freshly issued token validates. -/
theorem C4_witness :
    validateCSRFToken (fun s m => s ++ m)
      (generateCSRFToken (fun s m => s ++ m) ['s'] ['a'] ⟨none, none⟩).2
      (generateCSRFToken (fun s m => s ++ m) ['s'] ['a'] ⟨none, none⟩).1 = true :=
  (C4_second_issue_invalidates_first (fun s m => s ++ m) ⟨none, none⟩
    ['s'] ['a'] ['b'] (by decide) (by decide) (by decide) (by decide)
    (by decide) (by decide) (by decide) (by decide) (by decide) (by decide)).1

end Csrf

namespace Csrf

/-- C5: `validateCSRFToken` fails closed.  It returns false whenever the
candidate, the stored token, or the stored secret is missing; whenever the
candidate differs from the stored token (which covers any candidate obtained
by mutating a character of a previously valid — i.e. stored — token, since
the mutated string is a different string); whenever the candidate lacks the
'.' separator; and whenever the body throws (`Except.error`), the catch
turning the error into false rather than propagating it. -/
theorem C5_validate_fails_closed (hmac : Str → Str → Str) :
    (∀ (st : CSRFCookies) (cand : Str),
      st.token = none ∨ st.secret = none ∨ cand = [] →
      validateCSRFToken hmac st cand = false) ∧
    (∀ (st : CSRFCookies) (cand : Str), cand ≠ cookieVal st.token →
      validateCSRFToken hmac st cand = false) ∧
    (∀ (st : CSRFCookies) (cand : Str), '.' ∉ cand →
      validateCSRFToken hmac st cand = false) ∧
    (∀ (st : CSRFCookies) (cand : Str),
      validateCSRFTokenE hmac st cand = .error () →
      validateCSRFToken hmac st cand = false) := by
  refine ⟨?_, ?_, ?_, ?_⟩
  · intro st cand h
    have hc : cookieVal st.token = [] ∨ cookieVal st.secret = [] ∨ cand = [] := by
      rcases h with h | h | h
      · exact Or.inl (by rw [h]; rfl)
      · exact Or.inr (Or.inl (by rw [h]; rfl))
      · exact Or.inr (Or.inr h)
    unfold validateCSRFToken validateCSRFTokenE
    rw [if_pos hc]
  · exact fun st cand h => validate_false_of_ne_stored hmac st cand h
  · intro st cand hd
    unfold validateCSRFToken validateCSRFTokenE
    by_cases h1 : cookieVal st.token = [] ∨ cookieVal st.secret = [] ∨ cand = []
    · rw [if_pos h1]
    · rw [if_neg h1]
      by_cases h2 : cand ≠ cookieVal st.token
      · rw [if_pos h2]
      · rw [if_neg h2]
        rw [splitChar_not_mem '.' cand hd]
        rw [if_pos (Or.inr (show [cand].getD 1 ([] : Str) = [] from rfl))]
  · intro st cand h
    unfold validateCSRFToken
    rw [h]

/-- C5 witness: the empty cookie jar rejects the candidate "a" (missing
stored token and secret). -/
theorem C5_witness :
    validateCSRFToken (fun s m => s ++ m) ⟨none, none⟩ ['a'] = false :=
  (C5_validate_fails_closed (fun s m => s ++ m)).1 ⟨none, none⟩ ['a']
    (Or.inl rfl)

end Csrf
